import Mathlib

/-!
# Panning and zooming demo: the camera transform and the input rules

A shallow embedding of `main.cpp`.  The three file-scope variables
`world_offset_x`, `world_offset_y` and `zoom_scale` are a record that every
function receives and returns; the locals of `main` that survive a loop
iteration are a second record.  `float` values are rationals and `i32` values
are integers.  The float literals are the binary32 numbers they denote: `2.0f`,
`0.5f` and `512.0f` are 2, 1/2 and 512, and `0.01f` is 5368709/536870912.  In
the main development every float operation is taken without rounding (exact
arithmetic); the zoom scale is only ever doubled, halved and compared, which
binary32 does without rounding.  A last part of the definitions evaluates the
pan rule and the world-to-screen map with every operation rounded to binary32.
-/

namespace PanZoom

/-! ## Data model -/

/-- The file-scope camera variables (`main.cpp`, lines 57 to 62). -/
structure Camera where
  world_offset_x : ℚ
  world_offset_y : ℚ
  zoom_scale : ℚ
deriving DecidableEq

/-- The fields of `SDL_FRect`. -/
structure SDL_FRect where
  x : ℚ
  y : ℚ
  w : ℚ
  h : ℚ
deriving DecidableEq

/-- The record `Texture_Info`; the texture pointer is a handle number. -/
structure Texture_Info where
  tex : Nat
  width : Int
  height : Int
  channel_count : Int
deriving DecidableEq

/-- The `event` field of a window event, as far as `main` tells values apart. -/
inductive WindowEventID where
  | resized
  | unrelated
deriving DecidableEq

/-- The union `SDL_Event`, tagged by its `type` field, with the payload fields
that `main` reads. -/
inductive SDL_Event where
  | quit
  | window (event : WindowEventID) (data1 data2 : Int)
  | mousewheel (preciseY : ℚ)
  | mousebuttondown
  | mousebuttonup
  | mousemotion (xrel yrel : Int)
  | unrelated
deriving DecidableEq

/-- The locals of `main` that live across loop iterations, together with the
camera variables. -/
structure MainState where
  cam : Camera
  screen_width : Int
  screen_height : Int
  sashishi_dst : SDL_FRect
  perebi_dst : SDL_FRect
  person_dst : SDL_FRect
  mouse_x : Int
  mouse_y : Int
  mouse_held : Bool
  running : Bool
deriving DecidableEq

/-- What the windowing library supplies to one iteration of the `while` loop:
the pointer position returned by `SDL_GetMouseState` and the events that
`SDL_PollEvent` would deliver, in order. -/
structure Poll where
  mouse_x : Int
  mouse_y : Int
  events : List SDL_Event
deriving DecidableEq

/-! ## Coordinate transform (lines 64 to 78) -/

/-- The function `world_to_screen_x`: result and camera after the call. -/
def world_to_screen_x (x : ℚ) (c : Camera) : ℚ × Camera :=
  ((x - c.world_offset_x) * c.zoom_scale, c)

/-- The function `world_to_screen_y`: result and camera after the call. -/
def world_to_screen_y (y : ℚ) (c : Camera) : ℚ × Camera :=
  ((y - c.world_offset_y) * c.zoom_scale, c)

/-- The function `screen_to_world_x`: result and camera after the call. -/
def screen_to_world_x (x : ℚ) (c : Camera) : ℚ × Camera :=
  ((x / c.zoom_scale) + c.world_offset_x, c)

/-- The function `screen_to_world_y`: result and camera after the call. -/
def screen_to_world_y (y : ℚ) (c : Camera) : ℚ × Camera :=
  ((y / c.zoom_scale) + c.world_offset_y, c)

/-! ## Event handling (lines 119 to 170) -/

/-- The value of the literal `0.01f` of line 141: the binary32 number nearest
to 1/100, which is 5368709 / 2^29 and lies just below 1/100. -/
def min_zoom : ℚ := 5368709 / 536870912

/-- The `SDL_MOUSEWHEEL` block, lines 131 to 152.  `mouse_world_x` and
`mouse_world_y` are the values sampled at the top of the loop iteration. -/
def handle_mousewheel (mouse_world_x mouse_world_y : ℚ) (mouse_x mouse_y : Int)
    (preciseY : ℚ) (c : Camera) : Camera :=
  let zoom := false
  let (c, zoom) :=
    if preciseY > 0 then
      let c := { c with zoom_scale := c.zoom_scale * 2 }
      ({ c with zoom_scale := min c.zoom_scale 512 }, true)
    else (c, zoom)
  let (c, zoom) :=
    if preciseY < 0 then
      let c := { c with zoom_scale := c.zoom_scale * (1 / 2) }
      ({ c with zoom_scale := max c.zoom_scale min_zoom }, true)
    else (c, zoom)
  if zoom then
    let (mouse_world_after_zoom_x, c) := screen_to_world_x (mouse_x : ℚ) c
    let (mouse_world_after_zoom_y, c) := screen_to_world_y (mouse_y : ℚ) c
    let c := { c with world_offset_x := c.world_offset_x - (mouse_world_after_zoom_x - mouse_world_x) }
    { c with world_offset_y := c.world_offset_y - (mouse_world_after_zoom_y - mouse_world_y) }
  else c

/-- The body of the `for` loop for an event other than `SDL_QUIT`, lines 124
to 168: the `if` statements in source order. -/
def handle_event (mouse_world_x mouse_world_y : ℚ) (ev : SDL_Event) (st : MainState) :
    MainState :=
  let st :=
    match ev with
    | .window .resized data1 data2 => { st with screen_width := data1, screen_height := data2 }
    | _ => st
  let st :=
    match ev with
    | .mousewheel preciseY =>
      { st with cam := handle_mousewheel mouse_world_x mouse_world_y st.mouse_x st.mouse_y
                          preciseY st.cam }
    | _ => st
  let st :=
    match ev with
    | .mousebuttondown => { st with mouse_held := true }
    | _ => st
  let st :=
    match ev with
    | .mousebuttonup => { st with mouse_held := false }
    | _ => st
  match ev with
  | .mousemotion xrel yrel =>
    if st.mouse_held then
      let c := st.cam
      let c := { c with world_offset_x := c.world_offset_x - ((xrel : ℚ) / c.zoom_scale) }
      let c := { c with world_offset_y := c.world_offset_y - ((yrel : ℚ) / c.zoom_scale) }
      { st with cam := c }
    else st
  | _ => st

/-- The `for (SDL_Event ev; SDL_PollEvent(&ev);)` loop, lines 119 to 170:
`SDL_QUIT` clears `running` and leaves the loop, every other event goes
through the `if` statements, and the loop ends when no event is pending. -/
def poll_events (mouse_world_x mouse_world_y : ℚ) : List SDL_Event → MainState → MainState
  | [], st => st
  | .quit :: _, st => { st with running := false }
  | ev :: rest, st =>
    poll_events mouse_world_x mouse_world_y rest (handle_event mouse_world_x mouse_world_y ev st)

/-! ## Frame projection (lines 172 to 184) -/

/-- The destination rectangle built for one sprite, as in line 175. -/
def dst_rect (r : SDL_FRect) (c : Camera) : SDL_FRect :=
  { x := (world_to_screen_x r.x c).1, y := (world_to_screen_y r.y c).1,
    w := r.w * c.zoom_scale, h := r.h * c.zoom_scale }

/-- The draw calls of one iteration, in order: the texture handle and the
destination rectangle of each `SDL_RenderCopyF`. -/
def render (perebi sashishi person : Texture_Info) (st : MainState) :
    List (Nat × SDL_FRect) :=
  let perebi_d := dst_rect st.perebi_dst st.cam
  let sashishi_d := dst_rect st.sashishi_dst st.cam
  let person_d := dst_rect st.person_dst st.cam
  [(perebi.tex, perebi_d), (sashishi.tex, sashishi_d), (person.tex, person_d)]

/-! ## The main loop (lines 84 to 185) -/

/-- The state of `main` when the `while` loop is entered, lines 86 to 112, for
the three loaded textures. -/
def init_state (perebi sashishi person : Texture_Info) : MainState :=
  let screen_width : Int := 800
  let screen_height : Int := 600
  { cam := { world_offset_x := 0, world_offset_y := 0, zoom_scale := 2 }
    screen_width := screen_width
    screen_height := screen_height
    sashishi_dst :=
      { x := (screen_width : ℚ) * (1 / 2) - 5 * (sashishi.width : ℚ)
        y := (screen_height : ℚ) * (1 / 2) - 5 * (sashishi.width : ℚ)
        w := 10 * (sashishi.width : ℚ)
        h := 10 * (sashishi.height : ℚ) }
    perebi_dst := { x := 0, y := 0, w := 50 * (perebi.width : ℚ), h := 25 * (perebi.height : ℚ) }
    person_dst := { x := -300, y := 500, w := 1 * (person.width : ℚ), h := 1 * (person.height : ℚ) }
    mouse_x := 0
    mouse_y := 0
    mouse_held := false
    running := true }

/-- The event half of one loop iteration, lines 114 to 170: sample the pointer,
compute its world position once, then drain the events. -/
def update (p : Poll) (st : MainState) : MainState :=
  let st := { st with mouse_x := p.mouse_x, mouse_y := p.mouse_y }
  let mouse_world_x := (screen_to_world_x (st.mouse_x : ℚ) st.cam).1
  let mouse_world_y := (screen_to_world_y (st.mouse_y : ℚ) st.cam).1
  poll_events mouse_world_x mouse_world_y p.events st

/-- One iteration of the `while` loop: the state after it and its draw calls. -/
def loop_body (perebi sashishi person : Texture_Info) (p : Poll) (st : MainState) :
    MainState × List (Nat × SDL_FRect) :=
  let st := update p st
  (st, render perebi sashishi person st)

/-- The `while (running)` loop over the polls the library supplies: the final
state and the draw calls of every iteration that ran. -/
def main_loop (perebi sashishi person : Texture_Info) :
    List Poll → MainState → MainState × List (List (Nat × SDL_FRect))
  | [], st => (st, [])
  | p :: ps, st =>
    if st.running then
      let (st1, d) := loop_body perebi sashishi person p st
      let (st2, ds) := main_loop perebi sashishi person ps st1
      (st2, d :: ds)
    else (st, [])

/-! ## The pan rule and the world-to-screen map in binary32 -/

/-- The position of the leading bit of `n`: the number of halvings that bring
`n` below 2, counted with at most `fuel` steps (`fuel = n` is enough). -/
def leading_bit : Nat → Nat → Nat
  | 0, _ => 0
  | fuel + 1, n => if n < 2 then 0 else leading_bit fuel (n / 2) + 1

/-- The binary exponent of a nonzero rational: the `e` with `2^e ≤ |q| < 2^(e+1)`. -/
def binary_exponent (q : ℚ) : Int :=
  let k : Int := (leading_bit q.num.natAbs q.num.natAbs : Int) - (leading_bit q.den q.den : Int)
  if (2 : ℚ) ^ k ≤ |q| then k else k - 1

/-- Rounding of a rational to the nearest integer, a tie going to the even one. -/
def round_half_even (q : ℚ) : Int :=
  let f := Rat.floor q
  let r := q - (f : ℚ)
  if r < 1 / 2 then f else if 1 / 2 < r then f + 1 else if f % 2 = 0 then f else f + 1

/-- Rounding of a real result to binary32 (24-bit significand, least normal
exponent -126, so the spacing is never below 2^-149), round to nearest, ties to
even; `none` when the rounded value is beyond the largest finite number, where
the machine gives an infinity. -/
def f32 (q : ℚ) : Option ℚ :=
  if q = 0 then some 0
  else
    let e := max (binary_exponent q) (-126)
    let ulp : ℚ := (2 : ℚ) ^ (e - 23)
    let r : ℚ := (round_half_even (q / ulp) : ℚ) * ulp
    if |r| < (2 : ℚ) ^ (128 : Int) then some r else none

/-- The function `world_to_screen_x` of line 66 with the subtraction and the
multiplication each rounded to binary32. -/
def world_to_screen_x_f32 (x : ℚ) (c : Camera) : Option ℚ := do
  let d ← f32 (x - c.world_offset_x)
  f32 (d * c.zoom_scale)

/-- The function `world_to_screen_y` of line 70 with the subtraction and the
multiplication each rounded to binary32. -/
def world_to_screen_y_f32 (y : ℚ) (c : Camera) : Option ℚ := do
  let d ← f32 (y - c.world_offset_y)
  f32 (d * c.zoom_scale)

/-- The `SDL_MOUSEMOTION` block of lines 162 to 168 in binary32: the conversion
of `xrel` and `yrel` to `float`, the division and the subtraction are each
rounded; `none` when a result is not a finite number (division by a zero
`zoom_scale`, overflow). -/
def handle_motion_f32 (xrel yrel : Int) (st : MainState) : Option MainState :=
  if st.mouse_held then
    if st.cam.zoom_scale = 0 then none
    else do
      let c := st.cam
      let fx ← f32 (xrel : ℚ)
      let qx ← f32 (fx / c.zoom_scale)
      let ox ← f32 (c.world_offset_x - qx)
      let c := { c with world_offset_x := ox }
      let fy ← f32 (yrel : ℚ)
      let qy ← f32 (fy / c.zoom_scale)
      let oy ← f32 (c.world_offset_y - qy)
      let c := { c with world_offset_y := oy }
      some { st with cam := c }
  else some st

/-! ## Vocabulary of the properties -/

/-- The clamp range of the zoom scale in the code, `[0.01f, 512.0f]`. -/
def zoom_in_range (c : Camera) : Prop := min_zoom ≤ c.zoom_scale ∧ c.zoom_scale ≤ 512

instance (c : Camera) : Decidable (zoom_in_range c) := by
  unfold zoom_in_range
  infer_instance

/-- The clamp range as the specification writes it, with the decimal bound:
`0.01 ≤ zoom_scale ≤ 512.0`. -/
def zoom_in_decimal_range (c : Camera) : Prop := 1 / 100 ≤ c.zoom_scale ∧ c.zoom_scale ≤ 512

instance (c : Camera) : Decidable (zoom_in_decimal_range c) := by
  unfold zoom_in_decimal_range
  infer_instance

/-- The events the `for` loop takes from a pending queue: all of them up to
and including the first `SDL_QUIT`, at which the loop is left. -/
def polled : List SDL_Event → List SDL_Event
  | [] => []
  | .quit :: _ => [.quit]
  | ev :: rest => ev :: polled rest

/-- The events the `while` loop takes from a sequence of polls when it starts
in a running state: nothing is taken after the poll that holds `SDL_QUIT`. -/
def polled_run : List Poll → List SDL_Event
  | [] => []
  | p :: ps => polled p.events ++ (if SDL_Event.quit ∈ p.events then [] else polled_run ps)

/-- Button-press and button-release events. -/
def is_button : SDL_Event → Bool
  | .mousebuttondown => true
  | .mousebuttonup => true
  | _ => false

/-- The most recent button event of a sequence of events, if there is one. -/
def last_button (evs : List SDL_Event) : Option SDL_Event :=
  evs.reverse.find? is_button

/-- The drag flag the state machine of the specification has after a
sequence of events, entered with flag `held`: dragging when the most recent
button event is a press, idle when it is a release, unchanged without one. -/
def held_after (held : Bool) (evs : List SDL_Event) : Bool :=
  match last_button evs with
  | some ev => decide (ev = SDL_Event.mousebuttondown)
  | none => held

/-- The clamp of the zoom rule as the specification words it:
`clamp(v, lo, hi) = max(lo, min(v, hi))`. -/
def clamp (v lo hi : ℚ) : ℚ := max lo (min v hi)

/-- A texture of size 1 by 1, loaded for each of the three sprites in concrete runs. -/
def unit_textures : Texture_Info := { tex := 0, width := 1, height := 1, channel_count := 4 }

/-- The state at loop entry for the unit textures: offset (0,0), zoom 2. -/
def start : MainState := init_state unit_textures unit_textures unit_textures

/-- The loop-entry state with another zoom scale and drag flag. -/
def start_with (zoom_scale : ℚ) (mouse_held : Bool) : MainState :=
  { start with cam := { start.cam with zoom_scale := zoom_scale }, mouse_held := mouse_held }

/-- A dragging state far from the origin at the largest zoom: offset
(-639936, 0), zoom 512. -/
def far_panned : MainState :=
  { start with
    cam := { world_offset_x := -639936, world_offset_y := 0, zoom_scale := 512 }
    mouse_held := true }

/-- A dragging state at eight times the zoom floor, the binary32 number `0.08f`,
with offset (0, 0). -/
def at_eight_floors : MainState :=
  { start with
    cam := { world_offset_x := 0, world_offset_y := 0, zoom_scale := 8 * min_zoom }
    mouse_held := true }

/-! ## Properties -/

/-! ### Wheel handling -/

theorem min_zoom_pos : 0 < min_zoom := by norm_num [min_zoom]

theorem min_zoom_lt_decimal : min_zoom < 1 / 100 := by norm_num [min_zoom]

theorem decimal_le_two_min_zoom : 1 / 100 ≤ 2 * min_zoom := by norm_num [min_zoom]

theorem min_zoom_le_max : min_zoom ≤ 512 := by norm_num [min_zoom]

theorem handle_mousewheel_pos (mwx mwy : ℚ) (mx my : Int) (d : ℚ) (c : Camera) (hd : 0 < d) :
    handle_mousewheel mwx mwy mx my d c =
      { world_offset_x :=
          c.world_offset_x - (((mx : ℚ) / min (c.zoom_scale * 2) 512 + c.world_offset_x) - mwx)
        world_offset_y :=
          c.world_offset_y - (((my : ℚ) / min (c.zoom_scale * 2) 512 + c.world_offset_y) - mwy)
        zoom_scale := min (c.zoom_scale * 2) 512 } := by
  have h2 : ¬ d < 0 := not_lt.mpr hd.le
  simp [handle_mousewheel, screen_to_world_x, screen_to_world_y, hd, h2]

theorem handle_mousewheel_neg (mwx mwy : ℚ) (mx my : Int) (d : ℚ) (c : Camera) (hd : d < 0) :
    handle_mousewheel mwx mwy mx my d c =
      { world_offset_x :=
          c.world_offset_x -
            (((mx : ℚ) / max (c.zoom_scale * (1 / 2)) min_zoom + c.world_offset_x) - mwx)
        world_offset_y :=
          c.world_offset_y -
            (((my : ℚ) / max (c.zoom_scale * (1 / 2)) min_zoom + c.world_offset_y) - mwy)
        zoom_scale := max (c.zoom_scale * (1 / 2)) min_zoom } := by
  have h2 : ¬ 0 < d := not_lt.mpr hd.le
  simp [handle_mousewheel, screen_to_world_x, screen_to_world_y, hd, h2]

theorem handle_mousewheel_zero (mwx mwy : ℚ) (mx my : Int) (c : Camera) :
    handle_mousewheel mwx mwy mx my 0 c = c := by
  simp [handle_mousewheel]

theorem update_single_wheel (st : MainState) (mx my : Int) (d : ℚ) :
    (update { mouse_x := mx, mouse_y := my, events := [.mousewheel d] } st).cam =
      handle_mousewheel ((mx : ℚ) / st.cam.zoom_scale + st.cam.world_offset_x)
        ((my : ℚ) / st.cam.zoom_scale + st.cam.world_offset_y) mx my d st.cam := by
  simp [update, poll_events, handle_event, screen_to_world_x, screen_to_world_y]

/-- Claim C1, zoom anchoring.  In a camera state with `zoom_scale > 0`, when a
wheel event with nonzero delta is the only event of a poll cycle with the
pointer at `(mx, my)`, the zoom scale stays positive and `screen_to_world` of
the pointer is the same in the state after the cycle as in the state before
it, on both axes. -/
theorem zoom_anchoring (st : MainState) (mx my : Int) (d : ℚ)
    (hz : 0 < st.cam.zoom_scale) (hd : d ≠ 0) :
    0 < (update { mouse_x := mx, mouse_y := my, events := [.mousewheel d] } st).cam.zoom_scale ∧
    (screen_to_world_x (mx : ℚ)
        (update { mouse_x := mx, mouse_y := my, events := [.mousewheel d] } st).cam).1 =
      (screen_to_world_x (mx : ℚ) st.cam).1 ∧
    (screen_to_world_y (my : ℚ)
        (update { mouse_x := mx, mouse_y := my, events := [.mousewheel d] } st).cam).1 =
      (screen_to_world_y (my : ℚ) st.cam).1 := by
  rw [update_single_wheel]
  rcases lt_or_gt_of_ne hd with h | h
  · rw [handle_mousewheel_neg _ _ _ _ _ _ h]
    refine ⟨?_, ?_, ?_⟩
    · exact lt_max_of_lt_right min_zoom_pos
    · simp only [screen_to_world_x]; ring
    · simp only [screen_to_world_y]; ring
  · rw [handle_mousewheel_pos _ _ _ _ _ _ h]
    refine ⟨?_, ?_, ?_⟩
    · exact lt_min (by linarith) (by norm_num)
    · simp only [screen_to_world_x]; ring
    · simp only [screen_to_world_y]; ring

/-- The concrete case of C1: offset (0,0), zoom 2, pointer (100,100) lies over
world (50,50); one zoom-in makes the scale 4 and the pointer still lies over
world (50,50). -/
theorem zoom_anchoring_witness :
    0 < start.cam.zoom_scale ∧ (1 : ℚ) ≠ 0 ∧
    (screen_to_world_x ((100 : Int) : ℚ) start.cam).1 = 50 ∧
    (screen_to_world_y ((100 : Int) : ℚ) start.cam).1 = 50 ∧
    (update { mouse_x := 100, mouse_y := 100, events := [.mousewheel 1] }
      start).cam.zoom_scale = 4 ∧
    (screen_to_world_x ((100 : Int) : ℚ)
      (update { mouse_x := 100, mouse_y := 100, events := [.mousewheel 1] } start).cam).1 = 50 ∧
    (screen_to_world_y ((100 : Int) : ℚ)
      (update { mouse_x := 100, mouse_y := 100, events := [.mousewheel 1] } start).cam).1 = 50 := by
  have hz : 0 < start.cam.zoom_scale := by norm_num [start, init_state]
  have hx : (screen_to_world_x ((100 : Int) : ℚ) start.cam).1 = 50 := by
    norm_num [start, init_state, screen_to_world_x]
  have hy : (screen_to_world_y ((100 : Int) : ℚ) start.cam).1 = 50 := by
    norm_num [start, init_state, screen_to_world_y]
  have h := zoom_anchoring start 100 100 1 hz one_ne_zero
  refine ⟨hz, one_ne_zero, hx, hy, ?_, h.2.1.trans hx, h.2.2.trans hy⟩
  norm_num [update, poll_events, handle_event, handle_mousewheel, start, init_state,
    screen_to_world_x, screen_to_world_y]

/-! ### Transform and pan -/

theorem handle_motion_held (mwx mwy : ℚ) (st : MainState) (xrel yrel : Int)
    (hheld : st.mouse_held = true) :
    (handle_event mwx mwy (.mousemotion xrel yrel) st).cam =
      { world_offset_x := st.cam.world_offset_x - (xrel : ℚ) / st.cam.zoom_scale
        world_offset_y := st.cam.world_offset_y - (yrel : ℚ) / st.cam.zoom_scale
        zoom_scale := st.cam.zoom_scale } := by
  simp [handle_event, hheld]

/-- Claim C2, invertibility.  For a camera with `zoom_scale ≠ 0`, calling
`screen_to_world` on the result of `world_to_screen` gives the point back, and
so does `world_to_screen` on the result of `screen_to_world`, on each axis; the
camera after each call, and after each pair of calls, is the camera before. -/
theorem invertibility (c : Camera) (px py : ℚ) (hz : c.zoom_scale ≠ 0) :
    screen_to_world_x (world_to_screen_x px c).1 (world_to_screen_x px c).2 = (px, c) ∧
    screen_to_world_y (world_to_screen_y py c).1 (world_to_screen_y py c).2 = (py, c) ∧
    world_to_screen_x (screen_to_world_x px c).1 (screen_to_world_x px c).2 = (px, c) ∧
    world_to_screen_y (screen_to_world_y py c).1 (screen_to_world_y py c).2 = (py, c) ∧
    (world_to_screen_x px c).2 = c ∧ (world_to_screen_y py c).2 = c ∧
    (screen_to_world_x px c).2 = c ∧ (screen_to_world_y py c).2 = c := by
  refine ⟨?_, ?_, ?_, ?_, rfl, rfl, rfl, rfl⟩
  · simp only [screen_to_world_x, world_to_screen_x, Prod.mk.injEq, and_true]
    field_simp
  · simp only [screen_to_world_y, world_to_screen_y, Prod.mk.injEq, and_true]
    field_simp
  · simp only [screen_to_world_x, world_to_screen_x, Prod.mk.injEq, and_true]
    field_simp
    ring
  · simp only [screen_to_world_y, world_to_screen_y, Prod.mk.injEq, and_true]
    field_simp
    ring

/-- A concrete case of C2: at zoom 2 and offset (0,0) the world point 7 goes to
screen 14 and back to 7, and screen 7 goes to world 7/2 and back to 7. -/
theorem invertibility_witness :
    start.cam.zoom_scale ≠ 0 ∧
    screen_to_world_x (world_to_screen_x 7 start.cam).1 (world_to_screen_x 7 start.cam).2 =
      (7, start.cam) ∧
    world_to_screen_y (screen_to_world_y 7 start.cam).1 (screen_to_world_y 7 start.cam).2 =
      (7, start.cam) ∧
    (world_to_screen_x 7 start.cam).1 = 14 ∧ (screen_to_world_y 7 start.cam).1 = 7 / 2 :=
  ⟨by norm_num [start, init_state],
    (invertibility start.cam 7 7 (by norm_num [start, init_state])).1,
    (invertibility start.cam 7 7 (by norm_num [start, init_state])).2.2.2.1,
    by norm_num [start, init_state, world_to_screen_x],
    by norm_num [start, init_state, screen_to_world_y]⟩

/-- Claim C4, pan scaling.  For a camera with `zoom_scale ≠ 0`, a motion event
`(xrel, yrel)` handled while dragging makes the offset
`(offset.x - xrel/zoom_scale, offset.y - yrel/zoom_scale)` and keeps
`zoom_scale`; the offset change times the zoom scale is the motion delta. -/
theorem pan_scaling (mwx mwy : ℚ) (st : MainState) (xrel yrel : Int)
    (hz : st.cam.zoom_scale ≠ 0) (hheld : st.mouse_held = true) :
    (handle_event mwx mwy (.mousemotion xrel yrel) st).cam =
      { world_offset_x := st.cam.world_offset_x - (xrel : ℚ) / st.cam.zoom_scale
        world_offset_y := st.cam.world_offset_y - (yrel : ℚ) / st.cam.zoom_scale
        zoom_scale := st.cam.zoom_scale } ∧
    (st.cam.world_offset_x -
        (handle_event mwx mwy (.mousemotion xrel yrel) st).cam.world_offset_x) *
      st.cam.zoom_scale = (xrel : ℚ) ∧
    (st.cam.world_offset_y -
        (handle_event mwx mwy (.mousemotion xrel yrel) st).cam.world_offset_y) *
      st.cam.zoom_scale = (yrel : ℚ) := by
  rw [handle_motion_held mwx mwy st xrel yrel hheld]
  refine ⟨rfl, ?_, ?_⟩
  · simp only; field_simp
  · simp only; field_simp

/-- The concrete cases of C4: at zoom 4 a delta of (40, 0) changes `offset.x`
by -10 and leaves `offset.y`; at zoom 1 the same delta changes `offset.x` by
-40. -/
theorem pan_scaling_witness :
    ((start_with 4 true).cam.zoom_scale ≠ 0 ∧ (start_with 4 true).mouse_held = true ∧
      (handle_event 0 0 (.mousemotion 40 0) (start_with 4 true)).cam.world_offset_x -
        (start_with 4 true).cam.world_offset_x = -10 ∧
      (handle_event 0 0 (.mousemotion 40 0) (start_with 4 true)).cam.world_offset_y =
        (start_with 4 true).cam.world_offset_y) ∧
    ((start_with 1 true).cam.zoom_scale ≠ 0 ∧ (start_with 1 true).mouse_held = true ∧
      (handle_event 0 0 (.mousemotion 40 0) (start_with 1 true)).cam.world_offset_x -
        (start_with 1 true).cam.world_offset_x = -40 ∧
      (handle_event 0 0 (.mousemotion 40 0) (start_with 1 true)).cam.world_offset_y =
        (start_with 1 true).cam.world_offset_y) := by
  have h4 := pan_scaling 0 0 (start_with 4 true) 40 0 (by norm_num [start_with]) rfl
  have h1 := pan_scaling 0 0 (start_with 1 true) 40 0 (by norm_num [start_with]) rfl
  refine ⟨⟨by norm_num [start_with], rfl, ?_, ?_⟩, ⟨by norm_num [start_with], rfl, ?_, ?_⟩⟩
  · rw [h4.1]; norm_num [start_with]
  · rw [h4.1]; norm_num [start_with]
  · rw [h1.1]; norm_num [start_with]
  · rw [h1.1]; norm_num [start_with]

/-- Claim C7, zoom no-op.  A wheel event with delta 0 leaves both offsets and
the zoom scale as they were: as the only event of a poll cycle with the pointer
at any `(mx, my)`, and at any place in a poll cycle, whatever pointer world
position was sampled for the cycle. -/
theorem zoom_noop (mwx mwy : ℚ) (st : MainState) (mx my : Int) :
    (update { mouse_x := mx, mouse_y := my, events := [.mousewheel 0] } st).cam = st.cam ∧
    (handle_event mwx mwy (.mousewheel 0) st).cam = st.cam := by
  constructor
  · rw [update_single_wheel, handle_mousewheel_zero]
  · simp [handle_event, handle_mousewheel_zero]

/-- Claim C9 as amended, pan moves content by the pointer motion.  In exact
arithmetic, every float operation taken without rounding: for a camera with
`zoom_scale ≠ 0`, after a motion event `(dx, dy)` handled while dragging every
world point `(px, py)` is drawn at its former screen position plus `(dx, dy)`,
whatever the zoom scale. -/
theorem pan_moves_content (mwx mwy : ℚ) (st : MainState) (dx dy : Int) (px py : ℚ)
    (hz : st.cam.zoom_scale ≠ 0) (hheld : st.mouse_held = true) :
    (world_to_screen_x px (handle_event mwx mwy (.mousemotion dx dy) st).cam).1 =
      (world_to_screen_x px st.cam).1 + (dx : ℚ) ∧
    (world_to_screen_y py (handle_event mwx mwy (.mousemotion dx dy) st).cam).1 =
      (world_to_screen_y py st.cam).1 + (dy : ℚ) := by
  rw [handle_motion_held mwx mwy st dx dy hheld]
  constructor
  · simp only [world_to_screen_x]; field_simp; ring
  · simp only [world_to_screen_y]; field_simp; ring

/-- Concrete cases of the amended C9: the world point (3, 5) moves on screen by the motion
delta (40, -8), both at zoom 4 and at zoom 1/2. -/
theorem pan_moves_content_witness :
    ((start_with 4 true).cam.zoom_scale ≠ 0 ∧ (start_with 4 true).mouse_held = true ∧
      (world_to_screen_x 3 (handle_event 0 0 (.mousemotion 40 (-8)) (start_with 4 true)).cam).1 =
        (world_to_screen_x 3 (start_with 4 true).cam).1 + ((40 : Int) : ℚ) ∧
      (world_to_screen_y 5 (handle_event 0 0 (.mousemotion 40 (-8)) (start_with 4 true)).cam).1 =
        (world_to_screen_y 5 (start_with 4 true).cam).1 + ((-8 : Int) : ℚ) ∧
      (world_to_screen_x 3 (start_with 4 true).cam).1 = 12) ∧
    ((start_with (1 / 2) true).cam.zoom_scale ≠ 0 ∧
      (world_to_screen_x 3
          (handle_event 0 0 (.mousemotion 40 (-8)) (start_with (1 / 2) true)).cam).1 =
        (world_to_screen_x 3 (start_with (1 / 2) true).cam).1 + ((40 : Int) : ℚ)) :=
  ⟨⟨by norm_num [start_with], rfl,
      (pan_moves_content 0 0 (start_with 4 true) 40 (-8) 3 5 (by norm_num [start_with]) rfl).1,
      (pan_moves_content 0 0 (start_with 4 true) 40 (-8) 3 5 (by norm_num [start_with]) rfl).2,
      by norm_num [start_with, start, init_state, world_to_screen_x]⟩,
    ⟨by norm_num [start_with],
      (pan_moves_content 0 0 (start_with (1 / 2) true) 40 (-8) 3 5
        (by norm_num [start_with]) rfl).1⟩⟩

/-- Claim C10 as amended, zoom step value.  With `lo` the value of the literal
`0.01f` (5368709/536870912), for a camera with `zoom_scale` in `[lo, 512]` a
wheel event with positive delta sets the zoom scale to
`clamp(2 * zoom_scale, lo, 512)`, which is also `clamp(2 * zoom_scale, 0.01, 512)`,
and one with negative delta sets it to `clamp(0.5 * zoom_scale, lo, 512)`, with
`clamp(v, lo, hi) = max(lo, min(v, hi))`: the one-sided `min` and `max` of the
code agree with the two-sided clamp whose lower bound is the code's constant. -/
theorem zoom_step_value (mwx mwy : ℚ) (st : MainState) (d : ℚ)
    (hlo : min_zoom ≤ st.cam.zoom_scale) (hhi : st.cam.zoom_scale ≤ 512) :
    (0 < d →
      (handle_event mwx mwy (.mousewheel d) st).cam.zoom_scale =
        clamp (2 * st.cam.zoom_scale) min_zoom 512 ∧
      (handle_event mwx mwy (.mousewheel d) st).cam.zoom_scale =
        clamp (2 * st.cam.zoom_scale) (1 / 100) 512) ∧
    (d < 0 → (handle_event mwx mwy (.mousewheel d) st).cam.zoom_scale =
      clamp (1 / 2 * st.cam.zoom_scale) min_zoom 512) := by
  have h : (handle_event mwx mwy (.mousewheel d) st).cam =
      handle_mousewheel mwx mwy st.mouse_x st.mouse_y d st.cam := by simp [handle_event]
  have hpos := min_zoom_pos
  have hdec := decimal_le_two_min_zoom
  have hmax := min_zoom_le_max
  constructor
  · intro hd
    rw [h, handle_mousewheel_pos _ _ _ _ _ _ hd]
    simp only [clamp]
    rw [mul_comm, max_eq_right (le_min (by linarith) hmax),
      max_eq_right (le_min (by linarith) (by norm_num))]
    exact ⟨rfl, rfl⟩
  · intro hd
    rw [h, handle_mousewheel_neg _ _ _ _ _ _ hd]
    simp only [clamp]
    rw [mul_comm, min_eq_left (by linarith), max_comm]

/-- Concrete cases of the amended C10: from zoom 2 a zoom-in gives 4, from zoom
512 a zoom-in stays at 512, and from the floor `0.01f` a zoom-out stays at the
floor. -/
theorem zoom_step_value_witness :
    (min_zoom ≤ start.cam.zoom_scale ∧ start.cam.zoom_scale ≤ 512 ∧
      (handle_event 0 0 (.mousewheel 1) start).cam.zoom_scale =
        clamp (2 * start.cam.zoom_scale) min_zoom 512 ∧
      clamp (2 * start.cam.zoom_scale) min_zoom 512 = 4) ∧
    ((handle_event 0 0 (.mousewheel 1) (start_with 512 false)).cam.zoom_scale =
        clamp (2 * (start_with 512 false).cam.zoom_scale) min_zoom 512 ∧
      clamp (2 * (start_with 512 false).cam.zoom_scale) min_zoom 512 = 512) ∧
    ((handle_event 0 0 (.mousewheel (-1)) (start_with min_zoom false)).cam.zoom_scale =
        clamp (1 / 2 * (start_with min_zoom false).cam.zoom_scale) min_zoom 512 ∧
      clamp (1 / 2 * (start_with min_zoom false).cam.zoom_scale) min_zoom 512 = min_zoom) :=
  ⟨⟨by norm_num [start, init_state, min_zoom], by norm_num [start, init_state],
      ((zoom_step_value 0 0 start 1 (by norm_num [start, init_state, min_zoom])
        (by norm_num [start, init_state])).1 (by norm_num)).1,
      by norm_num [clamp, start, init_state, min_zoom]⟩,
    ⟨((zoom_step_value 0 0 (start_with 512 false) 1 (by norm_num [start_with, min_zoom])
        (by norm_num [start_with])).1 (by norm_num)).1,
      by norm_num [clamp, start_with, min_zoom]⟩,
    ⟨(zoom_step_value 0 0 (start_with min_zoom false) (-1) (by norm_num [start_with])
        (by norm_num [start_with, min_zoom])).2 (by norm_num),
      by norm_num [clamp, start_with, min_zoom]⟩⟩

/-- Claim C10 as first stated fails.  At zoom 1/64, which lies in `[0.01, 512]`
and is reached by seven zoom-outs from the start, a zoom-out sets the zoom
scale to the value of `0.01f`, 5368709/536870912, while
`clamp(0.5 * zoom_scale, 0.01, 512)` is 1/100. -/
theorem zoom_step_value_decimal_fails :
    (1 / 100 ≤ (start_with (1 / 64) false).cam.zoom_scale ∧
      (start_with (1 / 64) false).cam.zoom_scale ≤ 512) ∧
    (-1 : ℚ) < 0 ∧
    (handle_event 0 0 (.mousewheel (-1)) (start_with (1 / 64) false)).cam.zoom_scale =
      5368709 / 536870912 ∧
    clamp (1 / 2 * (start_with (1 / 64) false).cam.zoom_scale) (1 / 100) 512 = 1 / 100 ∧
    (handle_event 0 0 (.mousewheel (-1)) (start_with (1 / 64) false)).cam.zoom_scale ≠
      clamp (1 / 2 * (start_with (1 / 64) false).cam.zoom_scale) (1 / 100) 512 := by
  have h : (handle_event 0 0 (.mousewheel (-1)) (start_with (1 / 64) false)).cam.zoom_scale =
      5368709 / 536870912 := by
    have hc : (handle_event 0 0 (.mousewheel (-1)) (start_with (1 / 64) false)).cam =
        handle_mousewheel 0 0 (start_with (1 / 64) false).mouse_x
          (start_with (1 / 64) false).mouse_y (-1) (start_with (1 / 64) false).cam := by
      simp [handle_event]
    rw [hc, handle_mousewheel_neg _ _ _ _ _ _ (by norm_num)]
    norm_num [start_with, min_zoom]
  have hcl : clamp (1 / 2 * (start_with (1 / 64) false).cam.zoom_scale) (1 / 100) 512 =
      1 / 100 := by
    norm_num [clamp, start_with]
  refine ⟨⟨by norm_num [start_with], by norm_num [start_with]⟩, by norm_num, h, hcl, ?_⟩
  rw [h, hcl]
  norm_num

/-! ### Drag flag -/

theorem held_after_nil (h : Bool) : held_after h [] = h := rfl

theorem held_after_cons (h : Bool) (ev : SDL_Event) (l : List SDL_Event) :
    held_after h (ev :: l) =
      held_after (if ev = .mousebuttondown then true else if ev = .mousebuttonup then false else h) l := by
  unfold held_after last_button
  rw [List.reverse_cons, List.find?_append]
  cases hl : l.reverse.find? is_button with
  | some b => simp
  | none => cases ev <;> simp [is_button]

theorem held_after_append (h : Bool) (l1 l2 : List SDL_Event) :
    held_after h (l1 ++ l2) = held_after (held_after h l1) l2 := by
  induction l1 generalizing h with
  | nil => rfl
  | cons ev l ih => rw [List.cons_append, held_after_cons, held_after_cons, ih]

theorem handle_event_mouse_held (mwx mwy : ℚ) (ev : SDL_Event) (st : MainState) :
    (handle_event mwx mwy ev st).mouse_held =
      if ev = .mousebuttondown then true else if ev = .mousebuttonup then false
      else st.mouse_held := by
  cases ev with
  | window e d1 d2 => cases e <;> simp [handle_event]
  | mousemotion xr yr => by_cases hh : st.mouse_held = true <;> simp [handle_event, hh]
  | _ => simp [handle_event]

theorem handle_event_running (mwx mwy : ℚ) (ev : SDL_Event) (st : MainState) :
    (handle_event mwx mwy ev st).running = st.running := by
  cases ev with
  | window e d1 d2 => cases e <;> simp [handle_event]
  | mousemotion xr yr => by_cases hh : st.mouse_held = true <;> simp [handle_event, hh]
  | _ => simp [handle_event]

theorem poll_events_cons (mwx mwy : ℚ) (ev : SDL_Event) (rest : List SDL_Event)
    (st : MainState) (hq : ev ≠ .quit) :
    poll_events mwx mwy (ev :: rest) st =
      poll_events mwx mwy rest (handle_event mwx mwy ev st) := by
  cases ev <;> simp_all [poll_events]

theorem polled_cons (ev : SDL_Event) (rest : List SDL_Event) (hq : ev ≠ .quit) :
    polled (ev :: rest) = ev :: polled rest := by
  cases ev <;> simp_all [polled]

theorem polled_of_no_quit (evs : List SDL_Event) (h : SDL_Event.quit ∉ evs) :
    polled evs = evs := by
  induction evs with
  | nil => rfl
  | cons ev rest ih =>
    have hq : ev ≠ .quit := fun e => h (by simp [e])
    have hr : SDL_Event.quit ∉ rest := fun e => h (by simp [e])
    rw [polled_cons _ _ hq, ih hr]

theorem poll_events_polled (mwx mwy : ℚ) (evs : List SDL_Event) (st : MainState) :
    poll_events mwx mwy (polled evs) st = poll_events mwx mwy evs st := by
  induction evs generalizing st with
  | nil => rfl
  | cons ev rest ih =>
    by_cases hq : ev = .quit
    · subst hq
      simp [poll_events, polled]
    · rw [polled_cons _ _ hq, poll_events_cons _ _ _ _ _ hq, poll_events_cons _ _ _ _ _ hq, ih]

theorem poll_events_mouse_held (mwx mwy : ℚ) (evs : List SDL_Event) (st : MainState) :
    (poll_events mwx mwy evs st).mouse_held = held_after st.mouse_held (polled evs) := by
  induction evs generalizing st with
  | nil => rfl
  | cons ev rest ih =>
    by_cases hq : ev = .quit
    · subst hq
      simp [poll_events, polled, held_after_cons, held_after_nil]
    · rw [poll_events_cons _ _ _ _ _ hq, polled_cons _ _ hq, ih, held_after_cons,
        handle_event_mouse_held]

theorem poll_events_running (mwx mwy : ℚ) (evs : List SDL_Event) (st : MainState) :
    (poll_events mwx mwy evs st).running = (st.running && decide (SDL_Event.quit ∉ evs)) := by
  induction evs generalizing st with
  | nil => simp [poll_events]
  | cons ev rest ih =>
    by_cases hq : ev = .quit
    · subst hq
      simp [poll_events]
    · rw [poll_events_cons _ _ _ _ _ hq, ih, handle_event_running]
      have hq2 : ¬ SDL_Event.quit = ev := fun h => hq h.symm
      simp [hq2]

theorem main_loop_stopped (t1 t2 t3 : Texture_Info) (polls : List Poll) (st : MainState)
    (h : st.running = false) : main_loop t1 t2 t3 polls st = (st, []) := by
  cases polls <;> simp [main_loop, h]

theorem main_loop_cons (t1 t2 t3 : Texture_Info) (p : Poll) (ps : List Poll) (st : MainState)
    (h : st.running = true) :
    (main_loop t1 t2 t3 (p :: ps) st).1 = (main_loop t1 t2 t3 ps (update p st)).1 := by
  simp [main_loop, h, loop_body]

theorem main_loop_mouse_held (t1 t2 t3 : Texture_Info) (polls : List Poll) (st : MainState)
    (h : st.running = true) :
    (main_loop t1 t2 t3 polls st).1.mouse_held = held_after st.mouse_held (polled_run polls) := by
  induction polls generalizing st with
  | nil => rfl
  | cons p ps ih =>
    rw [main_loop_cons _ _ _ _ _ _ h]
    have hr : (update p st).running = decide (SDL_Event.quit ∉ p.events) := by
      simp [update, poll_events_running, h]
    have hm : (update p st).mouse_held = held_after st.mouse_held (polled p.events) := by
      simp [update, poll_events_mouse_held]
    by_cases hq : SDL_Event.quit ∈ p.events
    · have hr2 : (update p st).running = false := by simp [hr, hq]
      rw [main_loop_stopped _ _ _ _ _ hr2]
      simp [polled_run, hq, hm]
    · have hr2 : (update p st).running = true := by simp [hr, hq]
      rw [ih _ hr2, hm]
      simp [polled_run, hq, held_after_append]

/-! ### Zoom range -/

theorem handle_mousewheel_in_range (mwx mwy : ℚ) (mx my : Int) (d : ℚ) (c : Camera)
    (h : zoom_in_range c) : zoom_in_range (handle_mousewheel mwx mwy mx my d c) := by
  obtain ⟨hlo, hhi⟩ := h
  rcases lt_trichotomy d 0 with hd | hd | hd
  · rw [handle_mousewheel_neg _ _ _ _ _ _ hd]
    exact ⟨le_max_right _ _, max_le (by linarith) min_zoom_le_max⟩
  · subst hd
    rw [handle_mousewheel_zero]
    exact ⟨hlo, hhi⟩
  · rw [handle_mousewheel_pos _ _ _ _ _ _ hd]
    exact ⟨le_min (by linarith [min_zoom_pos]) min_zoom_le_max, min_le_right _ _⟩

theorem handle_event_in_range (mwx mwy : ℚ) (ev : SDL_Event) (st : MainState)
    (h : zoom_in_range st.cam) : zoom_in_range (handle_event mwx mwy ev st).cam := by
  cases ev with
  | window e d1 d2 => cases e <;> simpa [handle_event] using h
  | mousewheel d =>
    have hc : (handle_event mwx mwy (.mousewheel d) st).cam =
        handle_mousewheel mwx mwy st.mouse_x st.mouse_y d st.cam := by simp [handle_event]
    rw [hc]
    exact handle_mousewheel_in_range _ _ _ _ _ _ h
  | mousemotion xr yr =>
    by_cases hh : st.mouse_held = true
    · rw [handle_motion_held _ _ _ _ _ hh]
      exact h
    · simpa [handle_event, hh] using h
  | _ => simpa [handle_event] using h

theorem poll_events_in_range (mwx mwy : ℚ) (evs : List SDL_Event) (st : MainState)
    (h : zoom_in_range st.cam) : zoom_in_range (poll_events mwx mwy evs st).cam := by
  induction evs generalizing st with
  | nil => exact h
  | cons ev rest ih =>
    by_cases hq : ev = .quit
    · subst hq
      simpa [poll_events] using h
    · rw [poll_events_cons _ _ _ _ _ hq]
      exact ih _ (handle_event_in_range _ _ _ _ h)

theorem update_in_range (p : Poll) (st : MainState) (h : zoom_in_range st.cam) :
    zoom_in_range (update p st).cam := by
  unfold update
  exact poll_events_in_range _ _ _ _ h

theorem main_loop_in_range (t1 t2 t3 : Texture_Info) (polls : List Poll) (st : MainState)
    (h : zoom_in_range st.cam) : zoom_in_range (main_loop t1 t2 t3 polls st).1.cam := by
  induction polls generalizing st with
  | nil => exact h
  | cons p ps ih =>
    by_cases hr : st.running = true
    · rw [main_loop_cons _ _ _ _ _ _ hr]
      exact ih _ (update_in_range _ _ h)
    · have hr2 : st.running = false := by simpa using hr
      rw [main_loop_stopped _ _ _ _ _ hr2]
      exact h

/-- Claim C3 as amended, zoom clamp invariant.  With `lo` the value of the
literal `0.01f` (5368709/536870912, just below 0.01): from the state at loop
entry (offset (0,0), zoom 2), after any sequence of poll cycles with any events
`lo ≤ zoom_scale ≤ 512`; and handling any single event, with any sampled
pointer, keeps the zoom scale in `[lo, 512]` when it was in it before. -/
theorem zoom_clamp_invariant :
    (∀ (perebi sashishi person : Texture_Info) (polls : List Poll),
      zoom_in_range
        (main_loop perebi sashishi person polls (init_state perebi sashishi person)).1.cam) ∧
    (∀ (mwx mwy : ℚ) (ev : SDL_Event) (st : MainState),
      zoom_in_range st.cam → zoom_in_range (poll_events mwx mwy [ev] st).cam) := by
  constructor
  · intro t1 t2 t3 polls
    apply main_loop_in_range
    norm_num [zoom_in_range, init_state, min_zoom]
  · intro mwx mwy ev st h
    exact poll_events_in_range _ _ _ _ h

/-- Concrete cases of the amended C3: at the upper limit 512 a zoom-in leaves
the scale at 512, and at the floor `0.01f` a zoom-out leaves it at the floor. -/
theorem zoom_clamp_invariant_witness :
    (zoom_in_range (start_with 512 false).cam ∧
      zoom_in_range (poll_events 0 0 [.mousewheel 1] (start_with 512 false)).cam ∧
      (poll_events 0 0 [.mousewheel 1] (start_with 512 false)).cam.zoom_scale = 512) ∧
    (zoom_in_range (start_with min_zoom false).cam ∧
      zoom_in_range (poll_events 0 0 [.mousewheel (-1)] (start_with min_zoom false)).cam ∧
      (poll_events 0 0 [.mousewheel (-1)] (start_with min_zoom false)).cam.zoom_scale =
        min_zoom) :=
  ⟨⟨by norm_num [zoom_in_range, start_with, min_zoom],
      zoom_clamp_invariant.2 0 0 (.mousewheel 1) (start_with 512 false)
        (by norm_num [zoom_in_range, start_with, min_zoom]),
      by norm_num [poll_events, handle_event, handle_mousewheel, start_with, screen_to_world_x,
        screen_to_world_y]⟩,
    ⟨by norm_num [zoom_in_range, start_with, min_zoom],
      zoom_clamp_invariant.2 0 0 (.mousewheel (-1)) (start_with min_zoom false)
        (by norm_num [zoom_in_range, start_with, min_zoom]),
      by norm_num [poll_events, handle_event, handle_mousewheel, start_with, screen_to_world_x,
        screen_to_world_y, min_zoom]⟩⟩

/-- Claim C3 as first stated fails.  Eight poll cycles with one zoom-out each,
from the state at loop entry, leave the zoom scale at the value of `0.01f`,
5368709/536870912, which is below 0.01; and a single zoom-out at zoom 1/64,
inside `[0.01, 512]`, leaves that range. -/
theorem zoom_clamp_decimal_fails :
    (main_loop unit_textures unit_textures unit_textures
        (List.replicate 8 { mouse_x := 0, mouse_y := 0, events := [.mousewheel (-1)] })
        start).1.cam.zoom_scale = 5368709 / 536870912 ∧
    ¬ zoom_in_decimal_range
      (main_loop unit_textures unit_textures unit_textures
        (List.replicate 8 { mouse_x := 0, mouse_y := 0, events := [.mousewheel (-1)] })
        start).1.cam ∧
    zoom_in_decimal_range (start_with (1 / 64) false).cam ∧
    ¬ zoom_in_decimal_range
      (poll_events 0 0 [.mousewheel (-1)] (start_with (1 / 64) false)).cam := by
  refine ⟨by decide!, by decide!, by decide!, by decide!⟩

/-! ### Sprites -/

theorem handle_event_sprites (mwx mwy : ℚ) (ev : SDL_Event) (st : MainState) :
    (handle_event mwx mwy ev st).perebi_dst = st.perebi_dst ∧
    (handle_event mwx mwy ev st).sashishi_dst = st.sashishi_dst ∧
    (handle_event mwx mwy ev st).person_dst = st.person_dst := by
  cases ev with
  | window e d1 d2 => cases e <;> simp [handle_event]
  | mousemotion xr yr => by_cases hh : st.mouse_held = true <;> simp [handle_event, hh]
  | _ => simp [handle_event]

theorem poll_events_sprites (mwx mwy : ℚ) (evs : List SDL_Event) (st : MainState) :
    (poll_events mwx mwy evs st).perebi_dst = st.perebi_dst ∧
    (poll_events mwx mwy evs st).sashishi_dst = st.sashishi_dst ∧
    (poll_events mwx mwy evs st).person_dst = st.person_dst := by
  induction evs generalizing st with
  | nil => exact ⟨rfl, rfl, rfl⟩
  | cons ev rest ih =>
    by_cases hq : ev = .quit
    · subst hq
      simp [poll_events]
    · rw [poll_events_cons _ _ _ _ _ hq]
      obtain ⟨h1, h2, h3⟩ := ih (handle_event mwx mwy ev st)
      obtain ⟨g1, g2, g3⟩ := handle_event_sprites mwx mwy ev st
      exact ⟨h1.trans g1, h2.trans g2, h3.trans g3⟩

theorem update_sprites (p : Poll) (st : MainState) :
    (update p st).perebi_dst = st.perebi_dst ∧
    (update p st).sashishi_dst = st.sashishi_dst ∧
    (update p st).person_dst = st.person_dst := by
  unfold update
  exact poll_events_sprites _ _ _ _

/-- Claim C5, frame projection.  The destination rectangle of a sprite with
world rectangle `(x, y, w, h)` is
`(world_to_screen_x(x), world_to_screen_y(y), w*zoom_scale, h*zoom_scale)`, that
is `((x - offset.x)*zoom_scale, (y - offset.y)*zoom_scale, w*zoom_scale,
h*zoom_scale)`; every loop iteration hands the draw calls these rectangles for
the three sprites, computed with the camera left by the events of the
iteration, and leaves the stored world rectangles as they were.  The world
rectangle (0,0,10,10) at offset (0,0) and zoom 2 gives (0,0,20,20). -/
theorem frame_projection (perebi sashishi person : Texture_Info) (p : Poll) (st : MainState)
    (r : SDL_FRect) (c : Camera) :
    dst_rect r c =
      { x := (world_to_screen_x r.x c).1, y := (world_to_screen_y r.y c).1,
        w := r.w * c.zoom_scale, h := r.h * c.zoom_scale } ∧
    dst_rect r c =
      { x := (r.x - c.world_offset_x) * c.zoom_scale, y := (r.y - c.world_offset_y) * c.zoom_scale,
        w := r.w * c.zoom_scale, h := r.h * c.zoom_scale } ∧
    (loop_body perebi sashishi person p st).2 =
      [(perebi.tex, dst_rect st.perebi_dst (loop_body perebi sashishi person p st).1.cam),
       (sashishi.tex, dst_rect st.sashishi_dst (loop_body perebi sashishi person p st).1.cam),
       (person.tex, dst_rect st.person_dst (loop_body perebi sashishi person p st).1.cam)] ∧
    (loop_body perebi sashishi person p st).1.perebi_dst = st.perebi_dst ∧
    (loop_body perebi sashishi person p st).1.sashishi_dst = st.sashishi_dst ∧
    (loop_body perebi sashishi person p st).1.person_dst = st.person_dst ∧
    dst_rect { x := 0, y := 0, w := 10, h := 10 }
        { world_offset_x := 0, world_offset_y := 0, zoom_scale := 2 } =
      { x := 0, y := 0, w := 20, h := 20 } := by
  obtain ⟨h1, h2, h3⟩ := update_sprites p st
  refine ⟨rfl, rfl, ?_, h1, h2, h3, ?_⟩
  · simp only [loop_body, render, h1, h2, h3]
  · norm_num [dst_rect, world_to_screen_x, world_to_screen_y]

/-! ### Drag gating -/

/-- Claim C6, drag gating.  The drag flag is clear at loop entry; after any run
of poll cycles it is set exactly when the most recent button event the loop
took was a press; within one poll it follows the same rule from the flag it
had.  The events the loop takes from a queue are those up to the first
`SDL_QUIT`, all of them when there is none, and the loop treats the queue as it
treats that part of it.  An event that is neither a wheel event with nonzero delta nor a motion
event met with the flag set leaves both offsets and the zoom scale as they
were; so does, in particular, every motion event met with the flag clear. -/
theorem drag_gating :
    (∀ perebi sashishi person : Texture_Info,
      (init_state perebi sashishi person).mouse_held = false) ∧
    (∀ (perebi sashishi person : Texture_Info) (polls : List Poll),
      (main_loop perebi sashishi person polls (init_state perebi sashishi person)).1.mouse_held
          = true ↔
        last_button (polled_run polls) = some SDL_Event.mousebuttondown) ∧
    (∀ (mwx mwy : ℚ) (evs : List SDL_Event) (st : MainState),
      (poll_events mwx mwy evs st).mouse_held = held_after st.mouse_held (polled evs)) ∧
    (∀ (mwx mwy : ℚ) (evs : List SDL_Event) (st : MainState),
      poll_events mwx mwy (polled evs) st = poll_events mwx mwy evs st) ∧
    (∀ evs : List SDL_Event, SDL_Event.quit ∉ evs → polled evs = evs) ∧
    (∀ (mwx mwy : ℚ) (ev : SDL_Event) (st : MainState),
      (∀ d, ev = .mousewheel d → d = 0) →
      (∀ xrel yrel, ev = .mousemotion xrel yrel → st.mouse_held = false) →
      (poll_events mwx mwy [ev] st).cam = st.cam) ∧
    (∀ (mwx mwy : ℚ) (xrel yrel : Int) (st : MainState),
      st.mouse_held = false →
      (poll_events mwx mwy [.mousemotion xrel yrel] st).cam = st.cam) := by
  refine ⟨fun _ _ _ => rfl, ?_, poll_events_mouse_held, poll_events_polled, polled_of_no_quit,
    ?_, ?_⟩
  · intro t1 t2 t3 polls
    rw [main_loop_mouse_held _ _ _ _ _ rfl]
    have h0 : (init_state t1 t2 t3).mouse_held = false := rfl
    rw [h0]
    unfold held_after
    cases hl : last_button (polled_run polls) with
    | none => simp
    | some ev => simp
  · intro mwx mwy ev st hw hm
    cases ev with
    | quit => simp [poll_events]
    | window e d1 d2 => cases e <;> simp [poll_events, handle_event]
    | mousewheel d =>
      have hd := hw d rfl
      subst hd
      simp [poll_events, handle_event, handle_mousewheel_zero]
    | mousemotion xr yr =>
      have hh := hm xr yr rfl
      simp [poll_events, handle_event, hh]
    | _ => simp [poll_events, handle_event]
  · intro mwx mwy xr yr st hh
    simp [poll_events, handle_event, hh]

/-- A concrete case of C6: at zoom 4 and idle, the motion delta (40, 0) leaves
the camera as it was. -/
theorem drag_gating_witness :
    (start_with 4 false).mouse_held = false ∧
    (poll_events 0 0 [.mousemotion 40 0] (start_with 4 false)).cam = (start_with 4 false).cam :=
  ⟨rfl, drag_gating.2.2.2.2.2.2 0 0 40 0 (start_with 4 false) rfl⟩

/-! ### Stale pointer sample -/

/-- Claim C8, evaluated where it fails.  From the state at loop entry with the
pointer at (100,100), one poll cycle delivers a button press, a motion of
(40, 0) and a zoom-in.  After the press and the motion the offset is (-20, 0) and
the pointer lies over world x = 30; the wheel event compensates against the
value 50 sampled at the top of the cycle, so after it the pointer lies over
world x = 50: the world point under the pointer is not kept, and the pan is
undone. -/
theorem stale_world_before :
    (update { mouse_x := 100, mouse_y := 100, events := [.mousebuttondown, .mousemotion 40 0] }
        start).cam = { world_offset_x := -20, world_offset_y := 0, zoom_scale := 2 } ∧
    (screen_to_world_x ((100 : Int) : ℚ)
        (update { mouse_x := 100, mouse_y := 100, events := [.mousebuttondown, .mousemotion 40 0] }
          start).cam).1 = 30 ∧
    (screen_to_world_x ((100 : Int) : ℚ) start.cam).1 = 50 ∧
    (update { mouse_x := 100, mouse_y := 100,
              events := [.mousebuttondown, .mousemotion 40 0, .mousewheel 1] }
        start).cam = { world_offset_x := 25, world_offset_y := 25, zoom_scale := 4 } ∧
    (screen_to_world_x ((100 : Int) : ℚ)
        (update { mouse_x := 100, mouse_y := 100,
                  events := [.mousebuttondown, .mousemotion 40 0, .mousewheel 1] }
          start).cam).1 = 50 ∧
    (screen_to_world_x ((100 : Int) : ℚ)
        (update { mouse_x := 100, mouse_y := 100,
                  events := [.mousebuttondown, .mousemotion 40 0, .mousewheel 1] }
          start).cam).1 ≠
      (screen_to_world_x ((100 : Int) : ℚ)
        (update { mouse_x := 100, mouse_y := 100, events := [.mousebuttondown, .mousemotion 40 0] }
          start).cam).1 := by
  norm_num [update, poll_events, handle_event, handle_mousewheel, start, init_state,
    screen_to_world_x, screen_to_world_y]

/-! ### Binary32 -/

theorem leading_bit_spec (fuel n : Nat) (hn : 0 < n) (hf : n ≤ fuel) :
    2 ^ leading_bit fuel n ≤ n ∧ n < 2 ^ (leading_bit fuel n + 1) := by
  induction fuel generalizing n with
  | zero => omega
  | succ fuel ih =>
    unfold leading_bit
    by_cases h2 : n < 2
    · simp only [h2, if_true]
      omega
    · simp only [h2, if_false]
      have hpos : 0 < n / 2 := by omega
      have hle : n / 2 ≤ fuel := by omega
      obtain ⟨h1, h3⟩ := ih (n / 2) hpos hle
      constructor
      · rw [pow_succ]
        omega
      · rw [pow_succ]
        omega

/-- The float literals of the program under the rounding function: `0.01f` is
`min_zoom`, the others are exact; `0.08f` is eight times the floor; and two
integers above 2^24 show a tie going to the even significand and a rounding
up. -/
theorem f32_literals :
    f32 (1 / 100) = some min_zoom ∧ f32 2 = some 2 ∧ f32 (1 / 2) = some (1 / 2) ∧
    f32 512 = some 512 ∧ f32 (8 / 100) = some (8 * min_zoom) ∧
    f32 16777217 = some 16777216 ∧ f32 16777219 = some 16777220 := by
  refine ⟨by decide!, by decide!, by decide!, by decide!, by decide!, by decide!, by decide!⟩

/-- Claim C9 as first stated fails in the binary32 arithmetic of the program.
At offset (-639936, 0) and zoom 512, dragging, a motion of (1, 0) leaves the
offset as it was (639936 + 1/512 rounds to 639936), so the world point 0 stays
at screen x = 327647232 and does not move by 1.  At zoom `0.08f` and offset
(0, 0), dragging, a motion of (32, 0) takes the world point 3 from screen
x = 16106127/67108864 to 4225761/131072, which is neither the former position
plus 32 nor that sum rounded to binary32 (8451523/262144). -/
theorem pan_moves_content_binary32_fails :
    (far_panned.cam.zoom_scale ≠ 0 ∧ far_panned.mouse_held = true ∧
      handle_motion_f32 1 0 far_panned = some far_panned ∧
      world_to_screen_x_f32 0 far_panned.cam = some 327647232 ∧
      (handle_motion_f32 1 0 far_panned).bind (fun st => world_to_screen_x_f32 0 st.cam) =
        some 327647232 ∧
      (327647232 : ℚ) ≠ 327647232 + ((1 : Int) : ℚ)) ∧
    (at_eight_floors.cam.zoom_scale ≠ 0 ∧ at_eight_floors.mouse_held = true ∧
      f32 (8 / 100) = some at_eight_floors.cam.zoom_scale ∧
      world_to_screen_x_f32 3 at_eight_floors.cam = some (16106127 / 67108864) ∧
      (handle_motion_f32 32 0 at_eight_floors).bind (fun st => world_to_screen_x_f32 3 st.cam) =
        some (4225761 / 131072) ∧
      (4225761 / 131072 : ℚ) ≠ 16106127 / 67108864 + ((32 : Int) : ℚ) ∧
      f32 (16106127 / 67108864 + ((32 : Int) : ℚ)) = some (8451523 / 262144) ∧
      (4225761 / 131072 : ℚ) ≠ 8451523 / 262144) := by
  refine ⟨⟨by decide!, by decide!, by decide!, by decide!, by decide!, by decide!⟩,
    ⟨by decide!, by decide!, by decide!, by decide!, by decide!, by decide!, by decide!,
      by decide!⟩⟩

end PanZoom
